import Mathlib

/-!
Verification of the converShelltoWebUI controller against its specification.

Each section shallowly embeds one part of the Python source:

* `normalize_identity`            — controller/deps.py, lines 27-62
* auth resolver (`verify_token`, `require_admin`, …) — controller/deps.py, lines 68-245
* `require_execution_token`       — controller/deps.py, lines 281-317
* workflow execute / approve      — controller/routes (wrk.py), lines 391-541
* agent listing and env ACL       — controller/routes (agents.py), lines 136-275
* proxy session store             — ssl_proxy.py, lines 379-392
* report runner                   — controller/routes (reports.py), lines 239-319

Strings are modelled as `List Char` where character-level reasoning is needed;
machine integers and timestamps as `Nat`/`Int`.  Fallible routes return
`Except (Nat × String) α` carrying the HTTP status code and `detail` string.
Python truthiness of optional strings (`a or b`) is modelled explicitly
(`pyOrS`): an absent header and an empty header are both falsy.
-/

/-! ## Identity normalizer (deps.py 27-62)

`normalize_identity` applies, in source order: `strip`; surrounding-quote
removal; removal of a trailing `(...)` annotation (the regex
`\s*\([^)]*\)\s*$`, leftmost match) followed by `strip`; keep the part after
the first backslash (`split("\\", 1)[1].strip()`); keep the part before the
first `@`; removal of a leading letter-backslash residue (`^[A-Za-z]\\`)
followed by `strip`; collapse of whitespace runs to a single space. -/

/-- Python `\s` / `str.strip()` whitespace (ASCII part). -/
def isWs (c : Char) : Bool :=
  (c == ' ') || (c == '\t') || (c == '\n') || (c == '\r') || (c == '\x0b') || (c == '\x0c')

/-- `lstrip`: drop leading whitespace. -/
def dropLeadingWs (cs : List Char) : List Char := cs.dropWhile isWs

/-- `rstrip`: drop trailing whitespace. -/
def dropTrailingWs : List Char → List Char
  | [] => []
  | c :: rest =>
    match dropTrailingWs rest with
    | [] => if isWs c then [] else [c]
    | d :: r => c :: d :: r

/-- Python `str.strip()`. -/
def pyStrip (cs : List Char) : List Char := dropTrailingWs (dropLeadingWs cs)

/-- Python `ch in s` membership test. -/
def hasChar : List Char → Char → Bool
  | [], _ => false
  | c :: rest, a => (c == a) || hasChar rest a

/-- The gate of the quote-stripping step:
`(s.startswith('"') and s.endswith('"')) or (s.startswith("'") and s.endswith("'"))`. -/
def quote_wrapped (cs : List Char) : Bool :=
  match cs.head?, cs.getLast? with
  | some a, some b => ((a == '"') && (b == '"')) || ((a == '\'') && (b == '\''))
  | _, _ => false

/-- Quote stripping: `s = s[1:-1].strip()` when `quote_wrapped`. -/
def unquote (cs : List Char) : List Char :=
  if quote_wrapped cs then pyStrip (cs.drop 1).dropLast else cs

/-- `re.sub(r"\s*\([^)]*\)\s*$", "", s)`: remove the leftmost match of
"optional whitespace, `(`, no-close-paren content, `)`, trailing whitespace to
end of string".  The closing `)` must be the last non-whitespace character;
the chosen `(` is the first one after the last other `)`; the whitespace run
immediately before that `(` is removed with the match. -/
def removeTrailingAnnot (cs : List Char) : List Char :=
  let t := dropTrailingWs cs
  if t.getLast? = some ')' then
    let u := t.dropLast
    let after := (u.reverse.takeWhile (fun c => !(c == ')'))).reverse
    match after.findIdx? (fun c => c == '(') with
    | some i => dropTrailingWs (u.take (u.length - after.length + i))
    | none => cs
  else cs

/-- `if "\\" in s: s = s.split("\\", 1)[1].strip()`. -/
def backslashStep (cs : List Char) : List Char :=
  if hasChar cs '\\' then pyStrip ((cs.dropWhile (fun c => !(c == '\\'))).drop 1) else cs

/-- `if "@" in s: s = s.split("@", 1)[0]`. -/
def atStep (cs : List Char) : List Char :=
  if hasChar cs '@' then cs.takeWhile (fun c => !(c == '@')) else cs

/-- `[A-Za-z]` for the leading-residue regex. -/
def isAsciiLetter (c : Char) : Bool :=
  if ('A' ≤ c ∧ c ≤ 'Z') ∨ ('a' ≤ c ∧ c ≤ 'z') then true else false

/-- `re.sub(r"^[A-Za-z]\\", "", s)`: the anchored pattern removes at most one
leading letter-backslash pair. -/
def residueStep (cs : List Char) : List Char :=
  match cs with
  | a :: b :: rest => if isAsciiLetter a && (b == '\\') then rest else a :: b :: rest
  | l => l

/-- `re.sub(r"\s+", " ", s)`: each maximal whitespace run becomes one space. -/
def collapseWs : List Char → List Char
  | [] => []
  | [c] => if isWs c then [' '] else [c]
  | a :: b :: rest =>
    if isWs a then
      if isWs b then collapseWs (b :: rest)
      else ' ' :: collapseWs (b :: rest)
    else a :: collapseWs (b :: rest)

/-- The whole pipeline of `normalize_identity` on character lists, in source
order (deps.py 39-62). -/
def normalizeList (cs : List Char) : List Char :=
  collapseWs (pyStrip (residueStep (atStep (backslashStep
    (pyStrip (removeTrailingAnnot (unquote (pyStrip cs))))))))

/-- `normalize_identity` (deps.py 27-62); `if not raw: return ""`. -/
def normalize_identity (raw : String) : String :=
  if raw = "" then "" else String.mk (normalizeList raw.toList)

/-! ### Facts about the normalizer used for the idempotence analysis -/

theorem hasChar_eq_true_iff_mem (cs : List Char) (a : Char) :
    hasChar cs a = true ↔ a ∈ cs := by
  induction cs with
  | nil => simp [hasChar]
  | cons c rest ih =>
    simp only [hasChar, Bool.or_eq_true, beq_iff_eq, ih, List.mem_cons]
    constructor
    · rintro (h | h)
      · exact Or.inl h.symm
      · exact Or.inr h
    · rintro (h | h)
      · exact Or.inl h.symm
      · exact Or.inr h

theorem dropLeadingWs_head (cs : List Char) :
    ∀ c, (dropLeadingWs cs).head? = some c → isWs c = false := by
  induction cs with
  | nil => simp [dropLeadingWs]
  | cons a rest ih =>
    intro c hc
    by_cases h : isWs a
    · exact ih c (by simpa [dropLeadingWs, List.dropWhile_cons, h] using hc)
    · simp [dropLeadingWs, List.dropWhile_cons, h] at hc
      simp [← hc, Bool.eq_false_iff, h]

theorem dropLeadingWs_eq_self (cs : List Char)
    (h : ∀ c, cs.head? = some c → isWs c = false) : dropLeadingWs cs = cs := by
  cases cs with
  | nil => rfl
  | cons a rest => simp [dropLeadingWs, List.dropWhile_cons, h a rfl]

theorem mem_dropLeadingWs {c : Char} {cs : List Char} (h : c ∈ dropLeadingWs cs) : c ∈ cs :=
  (List.dropWhile_sublist isWs).mem h

theorem dropTrailingWs_getLast (cs : List Char) :
    ∀ c, (dropTrailingWs cs).getLast? = some c → isWs c = false := by
  induction cs with
  | nil => simp [dropTrailingWs]
  | cons a rest ih =>
    intro c hc
    cases h : dropTrailingWs rest with
    | nil =>
      rw [dropTrailingWs, h] at hc
      by_cases hw : isWs a
      · simp [hw] at hc
      · simp [hw] at hc
        simp [← hc, Bool.eq_false_iff, hw]
    | cons d r =>
      rw [dropTrailingWs, h] at hc
      rw [List.getLast?_cons_cons] at hc
      exact ih c (by rw [h]; exact hc)

theorem dropTrailingWs_eq_self (cs : List Char)
    (h : ∀ c, cs.getLast? = some c → isWs c = false) : dropTrailingWs cs = cs := by
  induction cs with
  | nil => rfl
  | cons a rest ih =>
    cases rest with
    | nil =>
      have := h a (by simp)
      simp [dropTrailingWs, this]
    | cons b r =>
      have hr : dropTrailingWs (b :: r) = b :: r :=
        ih (fun c hc => h c (by rw [List.getLast?_cons_cons]; exact hc))
      rw [dropTrailingWs, hr]

theorem dropTrailingWs_head (a : Char) (rest : List Char) :
    dropTrailingWs (a :: rest) = [] ∨ ∃ tl, dropTrailingWs (a :: rest) = a :: tl := by
  cases h : dropTrailingWs rest with
  | nil =>
    by_cases hw : isWs a
    · left; rw [dropTrailingWs, h]; simp [hw]
    · right; exact ⟨[], by rw [dropTrailingWs, h]; simp [hw]⟩
  | cons d r => right; exact ⟨d :: r, by rw [dropTrailingWs, h]⟩

theorem mem_dropTrailingWs {c : Char} : ∀ {cs : List Char}, c ∈ dropTrailingWs cs → c ∈ cs := by
  intro cs
  induction cs with
  | nil => simp [dropTrailingWs]
  | cons a rest ih =>
    intro h
    cases hr : dropTrailingWs rest with
    | nil =>
      rw [dropTrailingWs, hr] at h
      by_cases hw : isWs a
      · simp [hw] at h
      · simp [hw] at h
        simp [h]
    | cons d r =>
      rw [dropTrailingWs, hr] at h
      rcases List.mem_cons.mp h with h1 | h1
      · simp [h1]
      · exact List.mem_cons_of_mem a (ih (by rw [hr]; exact h1))

theorem pyStrip_head (cs : List Char) :
    ∀ c, (pyStrip cs).head? = some c → isWs c = false := by
  intro c hc
  cases hdl : dropLeadingWs cs with
  | nil => rw [pyStrip, hdl] at hc; simp [dropTrailingWs] at hc
  | cons a rest =>
    have ha : isWs a = false := dropLeadingWs_head cs a (by rw [hdl]; rfl)
    rcases dropTrailingWs_head a rest with h | ⟨tl, h⟩
    · rw [pyStrip, hdl, h] at hc; simp at hc
    · rw [pyStrip, hdl, h] at hc
      simp at hc
      rw [← hc]; exact ha

theorem pyStrip_getLast (cs : List Char) :
    ∀ c, (pyStrip cs).getLast? = some c → isWs c = false :=
  fun c hc => dropTrailingWs_getLast (dropLeadingWs cs) c hc

theorem mem_pyStrip {c : Char} {cs : List Char} (h : c ∈ pyStrip cs) : c ∈ cs :=
  mem_dropLeadingWs (mem_dropTrailingWs h)

theorem collapseWs_head (b : Char) (rest : List Char) (hb : isWs b = false) :
    (collapseWs (b :: rest)).head? = some b := by
  cases rest with
  | nil => simp [collapseWs, hb]
  | cons c r => simp [collapseWs, hb]

theorem collapseWs_mem {c : Char} : ∀ {cs : List Char}, c ∈ collapseWs cs → c = ' ' ∨ c ∈ cs := by
  intro cs
  induction cs using collapseWs.induct with
  | case1 => simp [collapseWs]
  | case2 d hd =>
    rw [collapseWs, if_pos hd]
    intro hc
    exact Or.inl (by simpa using hc)
  | case3 d hd =>
    rw [collapseWs, if_neg hd]
    intro hc
    exact Or.inr hc
  | case4 a b rest ha hb ih =>
    rw [collapseWs, if_pos ha, if_pos hb]
    intro h
    rcases ih h with h1 | h1
    · exact Or.inl h1
    · exact Or.inr (List.mem_cons_of_mem a h1)
  | case5 a b rest ha hb ih =>
    rw [collapseWs, if_pos ha, if_neg hb]
    intro h
    rcases List.mem_cons.mp h with h1 | h1
    · exact Or.inl h1
    · rcases ih h1 with h2 | h2
      · exact Or.inl h2
      · exact Or.inr (List.mem_cons_of_mem a h2)
  | case6 a b rest ha ih =>
    rw [collapseWs, if_neg ha]
    intro h
    rcases List.mem_cons.mp h with h1 | h1
    · exact Or.inr (by simp [h1])
    · rcases ih h1 with h2 | h2
      · exact Or.inl h2
      · exact Or.inr (List.mem_cons_of_mem a h2)

theorem collapseWs_ne_nil : ∀ {cs : List Char}, cs ≠ [] → collapseWs cs ≠ [] := by
  intro cs
  induction cs using collapseWs.induct with
  | case1 => intro h; exact absurd rfl h
  | case2 d hd => intro _; rw [collapseWs, if_pos hd]; simp
  | case3 d hd => intro _; rw [collapseWs, if_neg hd]; simp
  | case4 a b rest ha hb ih =>
    intro _
    rw [collapseWs, if_pos ha, if_pos hb]
    exact ih (by simp)
  | case5 a b rest ha hb ih =>
    intro _
    rw [collapseWs, if_pos ha, if_neg hb]
    simp
  | case6 a b rest ha ih =>
    intro _
    rw [collapseWs, if_neg ha]
    simp

theorem collapseWs_getLast :
    ∀ {cs : List Char} (c : Char), cs.getLast? = some c → isWs c = false →
      (collapseWs cs).getLast? = some c := by
  intro cs
  induction cs using collapseWs.induct with
  | case1 => intro c hc _; simp at hc
  | case2 d hd =>
    intro c hc hw
    simp at hc
    rw [← hc] at hw
    rw [hw] at hd
    simp at hd
  | case3 d hd =>
    intro c hc hw
    simp at hc
    rw [collapseWs, if_neg hd]
    simp [hc]
  | case4 a b rest ha hb ih =>
    intro c hc hw
    rw [List.getLast?_cons_cons] at hc
    rw [collapseWs, if_pos ha, if_pos hb]
    exact ih c hc hw
  | case5 a b rest ha hb ih =>
    intro c hc hw
    rw [List.getLast?_cons_cons] at hc
    rw [collapseWs, if_pos ha, if_neg hb]
    have hne : collapseWs (b :: rest) ≠ [] := collapseWs_ne_nil (by simp)
    cases hL : collapseWs (b :: rest) with
    | nil => exact absurd hL hne
    | cons x xs =>
      rw [List.getLast?_cons_cons]
      rw [← hL]
      exact ih c hc hw
  | case6 a b rest ha ih =>
    intro c hc hw
    rw [List.getLast?_cons_cons] at hc
    rw [collapseWs, if_neg ha]
    have hne : collapseWs (b :: rest) ≠ [] := collapseWs_ne_nil (by simp)
    cases hL : collapseWs (b :: rest) with
    | nil => exact absurd hL hne
    | cons x xs =>
      rw [List.getLast?_cons_cons]
      rw [← hL]
      exact ih c hc hw

theorem collapseWs_ws_eq_space :
    ∀ {cs : List Char} (c : Char), c ∈ collapseWs cs → isWs c = true → c = ' ' := by
  intro cs
  induction cs using collapseWs.induct with
  | case1 => intro c hc _; simp [collapseWs] at hc
  | case2 d hd =>
    intro c hc _
    rw [collapseWs, if_pos hd] at hc
    simpa using hc
  | case3 d hd =>
    intro c hc hw
    rw [collapseWs, if_neg hd] at hc
    simp at hc
    rw [hc] at hw
    exact absurd hw hd
  | case4 a b rest ha hb ih =>
    intro c hc hw
    rw [collapseWs, if_pos ha, if_pos hb] at hc
    exact ih c hc hw
  | case5 a b rest ha hb ih =>
    intro c hc hw
    rw [collapseWs, if_pos ha, if_neg hb] at hc
    rcases List.mem_cons.mp hc with h1 | h1
    · exact h1
    · exact ih c h1 hw
  | case6 a b rest ha ih =>
    intro c hc hw
    rw [collapseWs, if_neg ha] at hc
    rcases List.mem_cons.mp hc with h1 | h1
    · rw [h1] at hw; exact absurd hw ha
    · exact ih c h1 hw

/-- "No two adjacent whitespace characters". -/
def noAdjWs : List Char → Bool
  | [] => true
  | [_] => true
  | a :: b :: rest => (!(isWs a && isWs b)) && noAdjWs (b :: rest)

theorem noAdjWs_cons_of_not_ws (a : Char) (L : List Char)
    (ha : isWs a = false) (hL : noAdjWs L = true) : noAdjWs (a :: L) = true := by
  cases L with
  | nil => rfl
  | cons b r => simp [noAdjWs, ha, hL]

theorem noAdjWs_cons_of_head_not_ws (a : Char) (L : List Char) (b : Char)
    (hL : noAdjWs L = true) (hb : L.head? = some b) (hwb : isWs b = false) :
    noAdjWs (a :: L) = true := by
  cases L with
  | nil => rfl
  | cons x r =>
    simp at hb
    rw [← hb] at hwb
    simp [noAdjWs, hwb, hL]

theorem collapseWs_noAdj : ∀ (cs : List Char), noAdjWs (collapseWs cs) = true := by
  intro cs
  induction cs using collapseWs.induct with
  | case1 => rfl
  | case2 d hd => rw [collapseWs, if_pos hd]; rfl
  | case3 d hd => rw [collapseWs, if_neg hd]; rfl
  | case4 a b rest ha hb ih =>
    rw [collapseWs, if_pos ha, if_pos hb]
    exact ih
  | case5 a b rest ha hb ih =>
    rw [collapseWs, if_pos ha, if_neg hb]
    have hb' : isWs b = false := by simpa using hb
    exact noAdjWs_cons_of_head_not_ws ' ' _ b ih (collapseWs_head b rest hb') hb'
  | case6 a b rest ha ih =>
    rw [collapseWs, if_neg ha]
    exact noAdjWs_cons_of_not_ws a _ (by simpa using ha) ih

theorem collapseWs_eq_self :
    ∀ (cs : List Char), (∀ c ∈ cs, isWs c = true → c = ' ') → noAdjWs cs = true →
      collapseWs cs = cs := by
  intro cs
  induction cs using collapseWs.induct with
  | case1 => intro _ _; rfl
  | case2 d hd =>
    intro hsp _
    have : d = ' ' := hsp d (by simp) hd
    rw [collapseWs, if_pos hd, this]
  | case3 d hd =>
    intro _ _
    rw [collapseWs, if_neg hd]
  | case4 a b rest ha hb ih =>
    intro _ hadj
    rw [noAdjWs, ha, hb] at hadj
    simp at hadj
  | case5 a b rest ha hb ih =>
    intro hsp hadj
    have hb' : isWs b = false := by simpa using hb
    have ha' : a = ' ' := hsp a (by simp) ha
    have hadj' : noAdjWs (b :: rest) = true := by
      rw [noAdjWs, Bool.and_eq_true] at hadj
      exact hadj.2
    rw [collapseWs, if_pos ha, if_neg hb, ih (fun c hc hw => hsp c (List.mem_cons_of_mem a hc) hw) hadj', ha']
  | case6 a b rest ha ih =>
    intro hsp hadj
    have hadj' : noAdjWs (b :: rest) = true := by
      rw [noAdjWs, Bool.and_eq_true] at hadj
      exact hadj.2
    rw [collapseWs, if_neg ha, ih (fun c hc hw => hsp c (List.mem_cons_of_mem a hc) hw) hadj']

theorem at_not_mem_atStep (cs : List Char) : '@' ∉ atStep cs := by
  by_cases h : hasChar cs '@'
  · rw [atStep, if_pos h]
    intro hmem
    have := List.mem_takeWhile_imp hmem
    simp at this
  · rw [atStep, if_neg h]
    intro hmem
    exact h ((hasChar_eq_true_iff_mem cs '@').mpr hmem)

theorem mem_residueStep {c : Char} (cs : List Char) (h : c ∈ residueStep cs) : c ∈ cs := by
  match cs with
  | [] => exact h
  | [a] => exact h
  | a :: b :: rest =>
    rw [residueStep] at h
    by_cases hg : (isAsciiLetter a && (b == '\\')) = true
    · rw [if_pos hg] at h
      exact List.mem_cons_of_mem a (List.mem_cons_of_mem b h)
    · rw [if_neg hg] at h
      exact h

theorem normalizeList_head (cs : List Char) :
    ∀ c, (normalizeList cs).head? = some c → isWs c = false := by
  intro c hc
  rw [normalizeList] at hc
  cases hps : pyStrip (residueStep (atStep (backslashStep
      (pyStrip (removeTrailingAnnot (unquote (pyStrip cs))))))) with
  | nil => rw [hps] at hc; simp [collapseWs] at hc
  | cons a rest =>
    have ha : isWs a = false := pyStrip_head _ a (by rw [hps]; rfl)
    rw [hps, collapseWs_head a rest ha] at hc
    cases hc
    exact ha

theorem normalizeList_getLast (cs : List Char) :
    ∀ c, (normalizeList cs).getLast? = some c → isWs c = false := by
  intro c hc
  rw [normalizeList] at hc
  cases hps : pyStrip (residueStep (atStep (backslashStep
      (pyStrip (removeTrailingAnnot (unquote (pyStrip cs))))))) with
  | nil => rw [hps] at hc; simp [collapseWs] at hc
  | cons a rest =>
    cases hl : (a :: rest).getLast? with
    | none => simp at hl
    | some l =>
      have hlw : isWs l = false := pyStrip_getLast _ l (by rw [hps]; exact hl)
      rw [hps, collapseWs_getLast l hl hlw] at hc
      cases hc
      exact hlw

theorem normalizeList_no_at (cs : List Char) : hasChar (normalizeList cs) '@' = false := by
  rw [Bool.eq_false_iff]
  intro htrue
  have hmem := (hasChar_eq_true_iff_mem _ '@').mp htrue
  rw [normalizeList] at hmem
  rcases collapseWs_mem hmem with h | h
  · exact absurd h (by decide)
  · exact at_not_mem_atStep _ (mem_residueStep _ (mem_pyStrip h))

/-- Core of the idempotence analysis: the pipeline is the identity on any
string that is already stripped, whitespace-collapsed, free of `@` and `\`,
not wrapped in quotes, and not ending in `)`. -/
theorem normalizeList_fixpoint (z : List Char)
    (hhead : ∀ c, z.head? = some c → isWs c = false)
    (hlast : ∀ c, z.getLast? = some c → isWs c = false)
    (hsp : ∀ c ∈ z, isWs c = true → c = ' ')
    (hadj : noAdjWs z = true)
    (hat : hasChar z '@' = false)
    (hbs : hasChar z '\\' = false)
    (hq : quote_wrapped z = false)
    (hpar : z.getLast? ≠ some ')') :
    normalizeList z = z := by
  have hdt : dropTrailingWs z = z := dropTrailingWs_eq_self z hlast
  have hps : pyStrip z = z := by
    rw [pyStrip, dropLeadingWs_eq_self z hhead, hdt]
  have huq : unquote z = z := by rw [unquote, hq]; simp
  have hrt : removeTrailingAnnot z = z := by
    rw [removeTrailingAnnot]
    simp only [hdt]
    rw [if_neg hpar]
  have hbss : backslashStep z = z := by rw [backslashStep, hbs]; simp
  have hats : atStep z = z := by rw [atStep, hat]; simp
  have hrs : residueStep z = z := by
    match z with
    | [] => rfl
    | [c] => rfl
    | a :: b :: rest =>
      have hbne : (b == '\\') = false := by
        rw [beq_eq_false_iff_ne]
        intro he
        rw [Bool.eq_false_iff] at hbs
        exact hbs ((hasChar_eq_true_iff_mem _ '\\').mpr (by rw [← he]; simp))
      rw [residueStep, hbne]
      simp
  rw [normalizeList, hps, huq, hrt, hps, hbss, hats, hrs, hps]
  exact collapseWs_eq_self z hsp hadj

/-- C8 (counterexample): `normalize_identity` is not idempotent on every
string.  Only the last trailing `(...)` group is removed per pass, so
`"x (a) (b)"` normalizes to `"x (a)"`, which normalizes further to `"x"`. -/
theorem c8_counterexample :
    normalize_identity (normalize_identity "x (a) (b)") ≠ normalize_identity "x (a) (b)" := by
  decide

/-- C8 (amended): the identity normalizer is idempotent at every input whose
normalized form contains no backslash, is not wrapped in quotes, and does not
end with a closing parenthesis — quote stripping, trailing-annotation removal
and the `DOMAIN\user` split each peel only one layer per pass, so inputs
whose normal form still carries such a layer (e.g. `"x (a) (b)"`) are the
only failures of `normalize(normalize(x)) = normalize(x)`. -/
theorem c8_amended (x : String)
    (h1 : hasChar (normalize_identity x).toList '\\' = false)
    (h2 : quote_wrapped (normalize_identity x).toList = false)
    (h3 : (normalize_identity x).toList.getLast? ≠ some ')') :
    normalize_identity (normalize_identity x) = normalize_identity x := by
  by_cases hx : x = ""
  · rw [hx]; rfl
  · have hy : normalize_identity x = String.mk (normalizeList x.toList) := by
      rw [normalize_identity, if_neg hx]
    by_cases hy0 : normalize_identity x = ""
    · rw [hy0]; rfl
    · have hzl : (normalize_identity x).toList = normalizeList x.toList := by
        rw [hy]; rfl
      rw [hzl] at h1 h2 h3
      have hsp : ∀ c ∈ normalizeList x.toList, isWs c = true → c = ' ' := by
        intro c hc hw
        rw [normalizeList] at hc
        exact collapseWs_ws_eq_space c hc hw
      have hadj : noAdjWs (normalizeList x.toList) = true := by
        rw [normalizeList]
        exact collapseWs_noAdj _
      have hfix := normalizeList_fixpoint (normalizeList x.toList)
        (normalizeList_head x.toList) (normalizeList_getLast x.toList)
        hsp hadj (normalizeList_no_at x.toList) h1 h2 h3
      conv_lhs => rw [normalize_identity]
      rw [if_neg hy0, hzl, hfix]
      exact hy.symm

/-- Witness for `c8_amended` at the concrete input `"DOMAIN\jsmith"`. -/
theorem c8_amended_witness :
    hasChar (normalize_identity "DOMAIN\\jsmith").toList '\\' = false
    ∧ quote_wrapped (normalize_identity "DOMAIN\\jsmith").toList = false
    ∧ (normalize_identity "DOMAIN\\jsmith").toList.getLast? ≠ some ')'
    ∧ normalize_identity (normalize_identity "DOMAIN\\jsmith") = normalize_identity "DOMAIN\\jsmith" :=
  ⟨by decide, by decide, by decide,
    c8_amended "DOMAIN\\jsmith" (by decide) (by decide) (by decide)⟩

/-! ## Auth resolver (deps.py 68-245)

Requests are modelled by the headers the resolver reads; the repository's
`controller/db/db.py` lookups (`get_user_by_username`, `get_token_by_value`)
are passed in as functions.  Python truthiness of `a or b` on optional
strings is `pyOrS`. -/

/-- Python `a or b` on optional strings: `None` and `""` are falsy. -/
def pyOrS (a b : Option String) : Option String :=
  match a with
  | some s => if s = "" then b else some s
  | none => b

/-- The headers read by deps.py. -/
structure Req where
  xAuthUser : Option String
  xClientCertCN : Option String
  xForwardedUser : Option String
  xRemoteUser : Option String
  xAuthMethod : Option String
  xAdminToken : Option String
  xAgentToken : Option String
deriving DecidableEq

/-- The runtime-user / principal dictionary built by deps.py (the purely
presentational `display_name` field is omitted). -/
structure Principal where
  username : String
  role : Option String
  user_id : Option Nat
  auth_method : String
  token_name : String
deriving DecidableEq

/-- A row of the `users` table, as read by `get_runtime_user_from_request`. -/
structure UserRec where
  role : Option String
  user_id : Option Nat
  id : Option Nat
deriving DecidableEq

/-- A row of the `tokens` table, as read by `verify_token`. -/
structure TokenRow where
  token_name : String
  role : Option String
  revoked : Nat
deriving DecidableEq

/-- `raw_username` computed at deps.py 84-89: strip, then remove one pair of
surrounding quotes and strip again. -/
def raw_username_of (h : String) : String :=
  String.mk (unquote (pyStrip h.toList))

/-- `get_runtime_user_from_request` (deps.py 68-118). -/
def get_runtime_user_from_request (req : Req) (getUser : String → Option UserRec) :
    Option Principal :=
  match pyOrS req.xAuthUser (pyOrS req.xClientCertCN (pyOrS req.xForwardedUser req.xRemoteUser)) with
  | none => none
  | some h =>
    if h = "" then none
    else
      let normalized := normalize_identity h
      let raw := raw_username_of h
      let auth := match req.xAuthMethod with
                  | some m => if m = "" then "proxy" else m
                  | none => "proxy"
      let base : Principal :=
        { username := normalized, role := none, user_id := none,
          auth_method := auth, token_name := normalized }
      let found : Option UserRec :=
        match getUser normalized with
        | some u => some u
        | none => if raw ≠ normalized then getUser raw else none
      match found with
      | some u =>
        some { base with
                role := u.role,
                user_id := match u.user_id with | some i => some i | none => u.id }
      | none => some base

/-- The `X-Agent-Token` branch of `verify_token` (deps.py 153-168). -/
def agent_token_auth (req : Req) (getToken : String → Option TokenRow) :
    Except (Nat × String) Principal :=
  match req.xAgentToken with
  | some t =>
    if t = "" then .error (401, "Authentication required")
    else
      match getToken t with
      | some row =>
        if row.revoked ≠ 1 then
          if row.role ≠ some "agent" then .error (403, "Token is not an agent token")
          else
            .ok { username := row.token_name, token_name := row.token_name,
                  role := some "agent", user_id := none, auth_method := "agent_token" }
        else .error (401, "Invalid or revoked agent token")
      | none => .error (401, "Invalid or revoked agent token")
  | none => .error (401, "Authentication required")

/-- The `X-Admin-Token` / `X-Agent-Token` branches of `verify_token`
(deps.py 138-168). -/
def token_auth (req : Req) (getToken : String → Option TokenRow) :
    Except (Nat × String) Principal :=
  match req.xAdminToken with
  | some t =>
    if t = "" then agent_token_auth req getToken
    else
      match getToken t with
      | some row =>
        if row.revoked ≠ 1 then
          .ok { username := row.token_name, token_name := row.token_name,
                role := row.role, user_id := none, auth_method := "token" }
        else .error (401, "Invalid or revoked admin token")
      | none => .error (401, "Invalid or revoked admin token")
  | none => agent_token_auth req getToken

/-- `verify_token` (deps.py 124-168): proxy headers first, then admin/agent
bearer tokens. -/
def verify_token (req : Req) (getUser : String → Option UserRec)
    (getToken : String → Option TokenRow) : Except (Nat × String) Principal :=
  match get_runtime_user_from_request req getUser with
  | some u => if u.username ≠ "" then .ok u else token_auth req getToken
  | none => token_auth req getToken

/-- The admin decision applied to the verified principal (deps.py 184-199). -/
def require_admin_core (user : Principal) : Except (Nat × String) Principal :=
  if user.role = some "admin" then .ok user
  else if user.auth_method = "proxy" ∨ user.auth_method = "smartcard" ∨ user.auth_method = "wna" then
    .ok { user with role := some "admin" }
  else .error (403, "Admin access required")

/-- `require_admin` (deps.py 179-199). -/
def require_admin (req : Req) (getUser : String → Option UserRec)
    (getToken : String → Option TokenRow) : Except (Nat × String) Principal :=
  match verify_token req getUser getToken with
  | .ok u => require_admin_core u
  | .error e => .error e

/-- A non-admin principal authenticated with method `"native"`. -/
def c5userNative : Principal :=
  { username := "u1", role := some "viewer", user_id := none,
    auth_method := "native", token_name := "u1" }

/-- A non-admin principal authenticated with method `"wna"`. -/
def c5userWna : Principal :=
  { username := "u2", role := some "viewer", user_id := none,
    auth_method := "wna", token_name := "u2" }

/-- C5 (counterexample): the claim's trusted set `{smartcard, native, proxy}`
is wrong in both directions.  A caller with `auth_method = "native"` is in
the claim's set yet `require_admin` rejects it with 403; a caller with
`auth_method = "wna"` is outside the claim's set (and not role-admin) yet
`require_admin` grants it admin. -/
theorem c5_counterexample :
    (c5userNative.role = some "admin" ∨ c5userNative.auth_method = "smartcard"
      ∨ c5userNative.auth_method = "native" ∨ c5userNative.auth_method = "proxy")
    ∧ require_admin_core c5userNative = .error (403, "Admin access required")
    ∧ (c5userWna.role ≠ some "admin" ∧ c5userWna.auth_method ≠ "smartcard"
        ∧ c5userWna.auth_method ≠ "native" ∧ c5userWna.auth_method ≠ "proxy")
    ∧ require_admin_core c5userWna = .ok { c5userWna with role := some "admin" } := by
  refine ⟨by decide, ?_, by decide, ?_⟩ <;> rfl

/-- C5 (amended): `require_admin` returns a principal exactly when the
verified caller has role `admin` or `auth_method ∈ {proxy, smartcard, wna}`;
every other authenticated caller is rejected with 403 "Admin access
required". -/
theorem c5_amended (u : Principal) :
    ((∃ p, require_admin_core u = .ok p) ↔
      (u.role = some "admin" ∨ u.auth_method = "proxy"
        ∨ u.auth_method = "smartcard" ∨ u.auth_method = "wna"))
    ∧ (¬ (u.role = some "admin" ∨ u.auth_method = "proxy"
          ∨ u.auth_method = "smartcard" ∨ u.auth_method = "wna") →
        require_admin_core u = .error (403, "Admin access required")) := by
  constructor
  · constructor
    · rintro ⟨p, hp⟩
      rw [require_admin_core] at hp
      by_cases h1 : u.role = some "admin"
      · exact Or.inl h1
      · rw [if_neg h1] at hp
        by_cases h2 : u.auth_method = "proxy" ∨ u.auth_method = "smartcard" ∨ u.auth_method = "wna"
        · exact Or.inr h2
        · rw [if_neg h2] at hp
          exact absurd hp (by simp)
    · intro h
      rw [require_admin_core]
      by_cases h1 : u.role = some "admin"
      · rw [if_pos h1]; exact ⟨u, rfl⟩
      · rw [if_neg h1]
        have h2 : u.auth_method = "proxy" ∨ u.auth_method = "smartcard" ∨ u.auth_method = "wna" := by
          rcases h with h | h | h | h
          · exact absurd h h1
          · exact Or.inl h
          · exact Or.inr (Or.inl h)
          · exact Or.inr (Or.inr h)
        rw [if_pos h2]
        exact ⟨_, rfl⟩
  · intro h
    push_neg at h
    obtain ⟨h1, h2, h3, h4⟩ := h
    rw [require_admin_core, if_neg h1, if_neg (by simp [h2, h3, h4])]

/-- Witness for `c5_amended` at a concrete token-authenticated principal. -/
theorem c5_amended_witness :
    require_admin_core
        { username := "t1", role := some "viewer", user_id := none,
          auth_method := "token", token_name := "t1" }
      = .error (403, "Admin access required") :=
  (c5_amended
    { username := "t1", role := some "viewer", user_id := none,
      auth_method := "token", token_name := "t1" }).2 (by decide)

/-- C6: any request whose identity header normalizes to a non-empty username
authenticates even when the user store has no such user; `auth_method` comes
from the `X-Auth-Method` header, defaulting to `"proxy"` when it is absent,
and in that default case `require_admin` grants admin. -/
theorem c6_proxy_headers_grant_admin
    (req : Req) (getUser : String → Option UserRec) (getToken : String → Option TokenRow)
    (h : String)
    (hh : pyOrS req.xAuthUser (pyOrS req.xClientCertCN (pyOrS req.xForwardedUser req.xRemoteUser))
          = some h)
    (hn : normalize_identity h ≠ "")
    (hdb : ∀ s, getUser s = none) :
    (verify_token req getUser getToken
      = .ok { username := normalize_identity h, role := none, user_id := none,
              auth_method := match req.xAuthMethod with
                             | some m => if m = "" then "proxy" else m
                             | none => "proxy",
              token_name := normalize_identity h })
    ∧ (req.xAuthMethod = none →
        require_admin req getUser getToken
          = .ok { username := normalize_identity h, role := some "admin", user_id := none,
                  auth_method := "proxy", token_name := normalize_identity h }) := by
  have hne : h ≠ "" := by
    intro he
    rw [he] at hn
    exact hn rfl
  have hru : get_runtime_user_from_request req getUser
      = some { username := normalize_identity h, role := none, user_id := none,
               auth_method := match req.xAuthMethod with
                              | some m => if m = "" then "proxy" else m
                              | none => "proxy",
               token_name := normalize_identity h } := by
    simp only [get_runtime_user_from_request, hh]
    rw [if_neg hne]
    simp only [hdb, ite_self]
  have hv : verify_token req getUser getToken
      = .ok { username := normalize_identity h, role := none, user_id := none,
              auth_method := match req.xAuthMethod with
                             | some m => if m = "" then "proxy" else m
                             | none => "proxy",
              token_name := normalize_identity h } := by
    rw [verify_token, hru]
    exact if_pos hn
  refine ⟨hv, ?_⟩
  intro hm
  simp only [require_admin, hv]
  rw [require_admin_core]
  rw [if_neg (by simp)]
  rw [hm]
  exact if_pos (Or.inl rfl)

/-- A request carrying only an `X-Auth-User` header. -/
def c6req : Req :=
  { xAuthUser := some "DOMAIN\\jsmith", xClientCertCN := none, xForwardedUser := none,
    xRemoteUser := none, xAuthMethod := none, xAdminToken := none, xAgentToken := none }

/-- Witness for `c6_proxy_headers_grant_admin` at the concrete request
`c6req` and an empty user store. -/
theorem c6_proxy_headers_grant_admin_witness :
    verify_token c6req (fun _ => none) (fun _ => none)
      = .ok { username := "jsmith", role := none, user_id := none,
              auth_method := "proxy", token_name := "jsmith" }
    ∧ require_admin c6req (fun _ => none) (fun _ => none)
      = .ok { username := "jsmith", role := some "admin", user_id := none,
              auth_method := "proxy", token_name := "jsmith" } := by
  have h := c6_proxy_headers_grant_admin c6req (fun _ => none) (fun _ => none)
    "DOMAIN\\jsmith" (by decide) (by decide) (fun _ => rfl)
  have hjs : normalize_identity "DOMAIN\\jsmith" = "jsmith" := by decide
  constructor
  · rw [h.1, hjs]; rfl
  · rw [h.2 rfl, hjs]

/-! ## One-time execution tokens (deps.py 281-317)

`require_execution_token` validates the `X-Execution-Token` header against
the `execution_tokens` table and consumes the token.  Timestamps are `Int`
seconds; `expires_at` is `none` when the column is NULL or unparsable. -/

/-- A row of the `execution_tokens` table. -/
structure ExecTokenRow where
  id : Nat
  token : String
  workflow_id : String
  used : Bool
  expires_at : Option Int
deriving DecidableEq

/-- `db.get_execution_token_by_value`: lookup by token value. -/
def get_execution_token_by_value (store : List ExecTokenRow) (t : String) :
    Option ExecTokenRow :=
  store.find? (fun r => r.token == t)

/-- Modelled from the spec: `db.mark_execution_token_used`
(controller/db/db.py is not under src/) — compare-and-set consumption: it
succeeds exactly when the row's `used` flag is still false, setting it true,
so "any second attempt must fail". -/
def mark_execution_token_used (store : List ExecTokenRow) (i : Nat) :
    Bool × List ExecTokenRow :=
  match store.find? (fun r => r.id == i) with
  | none => (false, store)
  | some r =>
    if r.used then (false, store)
    else (true, store.map (fun r2 => if r2.id = i then { r2 with used := true } else r2))

/-- The expiry comparison at deps.py 304-307:
`if exp < datetime.utcnow(): raise HTTPException(403, "Token expired")`. -/
def expiry_check (expires_at : Option Int) (now : Int) : Except (Nat × String) Unit :=
  match expires_at with
  | none => .ok ()
  | some exp => if exp < now then .error (403, "Token expired") else .ok ()

/-- `require_execution_token` (deps.py 281-317).  Returns the route result
together with the post-state of the token table.

The expiry check at lines 303-309 sits inside
`try: ... raise HTTPException(403, "Token expired") except Exception: ...`;
`HTTPException` is an `Exception`, so the raised rejection is caught by the
handler (which only logs "Invalid expires_at format") and control falls
through to the consumption step regardless of the check's outcome.  The
embedding therefore computes `expiry_check` and discards it, exactly as the
source's control flow does. -/
def require_execution_token (store : List ExecTokenRow) (workflow_id : String)
    (header_token : Option String) (now : Int) :
    Except (Nat × String) ExecTokenRow × List ExecTokenRow :=
  match header_token with
  | none => (.error (403, "Execution token required"), store)
  | some t =>
    if t = "" then (.error (403, "Execution token required"), store)
    else
      match get_execution_token_by_value store t with
      | none => (.error (403, "Invalid execution token"), store)
      | some row =>
        if row.workflow_id ≠ workflow_id then
          (.error (403, "Token not valid for this workflow"), store)
        else if row.used then (.error (403, "Token already used"), store)
        else
          let _swallowed := expiry_check row.expires_at now
          match mark_execution_token_used store row.id with
          | (true, store2) => (.ok row, store2)
          | (false, _) => (.error (403, "Token could not be consumed"), store)

/-- The concrete failing token: bound to `wf1`, unused, expired at time 5. -/
def c3row : ExecTokenRow :=
  { id := 1, token := "tok1", workflow_id := "wf1", used := false, expires_at := some 5 }

/-- C3: at time 10 the token `c3row` is expired — `expiry_check` says so —
yet `require_execution_token` admits the request, consumes the token and
returns it, because the source catches its own `HTTPException` in the
`except Exception:` handler.  A second presentation of the same token then
fails with "Token already used" (the used-flag half of the claim holds). -/
theorem c3_expired_token_accepted :
    expiry_check c3row.expires_at 10 = .error (403, "Token expired")
    ∧ (require_execution_token [c3row] "wf1" (some "tok1") 10).1 = .ok c3row
    ∧ (require_execution_token [c3row] "wf1" (some "tok1") 10).2
        = [{ c3row with used := true }]
    ∧ (require_execution_token [{ c3row with used := true }] "wf1" (some "tok1") 10).1
        = .error (403, "Token already used") := by
  refine ⟨rfl, rfl, rfl, rfl⟩

/-! ## Workflow engine (wrk.py 391-541)

Workflow rows keep the free-form string status the source uses.  The
repository's `controller/db/db.py` is not under src/, so its primitives
(`get_workflow` lazy expiry, `add_approval`) are modelled from the spec where
noted; the route bodies themselves are embedded from wrk.py. -/

/-- The fields of a workflow row read by the execute route. -/
structure Workflow where
  status : String
  script_id : Option String
  targets : List String
  created_at : Nat
  ttl_minutes : Nat
deriving DecidableEq

/-- The status / script / targets gate of `execute_workflow`
(wrk.py 480-497); `none` means the gate passed and dispatch proceeds. -/
def execute_workflow_check (wf : Workflow) : Option (Nat × String) :=
  if wf.status = "executed" then some (400, "Workflow has already been executed")
  else if wf.status = "denied" then some (400, "Workflow was denied")
  else if wf.status = "expired" then some (400, "Workflow has expired")
  else if wf.status ≠ "approved" then
    some (400, "Workflow is not approved (status: " ++ wf.status ++ ")")
  else if wf.script_id.getD "" = "" then some (400, "Workflow has no script")
  else if wf.targets.isEmpty then some (400, "Workflow has no targets")
  else none

/-- Modelled from the spec: `db.get_workflow` (controller/db/db.py is not
under src/).  The spec's invariant "`now > expires_at` ∧ status = `pending` ⇒
status is observably `expired` (may be lazily set)": a reader of a pending
workflow past `created_at + ttl_minutes` sees status `expired`. -/
def observed_status (stored : String) (created_at ttl_minutes now : Nat) : String :=
  if stored = "pending" ∧ now > created_at + ttl_minutes * 60 then "expired" else stored

/-- C1: `execute` passes the status gate only for status `"approved"`; every
other state is rejected with 400 and the precise reason from the claim, and
a pending workflow whose TTL elapsed is observed as `expired` and rejected
with 400 "Workflow has expired". -/
theorem c1_execute_gate :
    (∀ wf : Workflow, execute_workflow_check wf = none → wf.status = "approved")
    ∧ (∀ wf : Workflow, wf.status = "executed" →
        execute_workflow_check wf = some (400, "Workflow has already been executed"))
    ∧ (∀ wf : Workflow, wf.status = "denied" →
        execute_workflow_check wf = some (400, "Workflow was denied"))
    ∧ (∀ wf : Workflow, wf.status = "expired" →
        execute_workflow_check wf = some (400, "Workflow has expired"))
    ∧ (∀ wf : Workflow, wf.status ≠ "executed" → wf.status ≠ "denied" →
        wf.status ≠ "expired" → wf.status ≠ "approved" →
        execute_workflow_check wf
          = some (400, "Workflow is not approved (status: " ++ wf.status ++ ")"))
    ∧ (∀ (wf : Workflow) (now : Nat), wf.status = "pending" →
        now > wf.created_at + wf.ttl_minutes * 60 →
        execute_workflow_check
            { wf with status := observed_status wf.status wf.created_at wf.ttl_minutes now }
          = some (400, "Workflow has expired")) := by
  refine ⟨?_, ?_, ?_, ?_, ?_, ?_⟩
  · intro wf h
    by_contra hne
    rw [execute_workflow_check] at h
    by_cases h1 : wf.status = "executed"
    · rw [if_pos h1] at h; exact absurd h (by simp)
    · rw [if_neg h1] at h
      by_cases h2 : wf.status = "denied"
      · rw [if_pos h2] at h; exact absurd h (by simp)
      · rw [if_neg h2] at h
        by_cases h3 : wf.status = "expired"
        · rw [if_pos h3] at h; exact absurd h (by simp)
        · rw [if_neg h3, if_pos hne] at h; exact absurd h (by simp)
  · intro wf h
    rw [execute_workflow_check, if_pos h]
  · intro wf h
    rw [execute_workflow_check, if_neg (by rw [h]; decide), if_pos h]
  · intro wf h
    rw [execute_workflow_check, if_neg (by rw [h]; decide), if_neg (by rw [h]; decide),
        if_pos h]
  · intro wf h1 h2 h3 h4
    rw [execute_workflow_check, if_neg h1, if_neg h2, if_neg h3, if_pos h4]
  · intro wf now h1 h2
    have hobs : observed_status wf.status wf.created_at wf.ttl_minutes now = "expired" := by
      rw [observed_status, if_pos ⟨h1, h2⟩]
    rw [execute_workflow_check]
    simp only [hobs]
    rfl

/-- Witness for `c1_execute_gate` at concrete workflows in each rejected
state and at a pending workflow past its TTL. -/
theorem c1_execute_gate_witness :
    execute_workflow_check
        { status := "denied", script_id := some "s1", targets := ["a1"],
          created_at := 0, ttl_minutes := 60 }
      = some (400, "Workflow was denied")
    ∧ execute_workflow_check
        { status := "running", script_id := some "s1", targets := ["a1"],
          created_at := 0, ttl_minutes := 60 }
      = some (400, "Workflow is not approved (status: " ++ "running" ++ ")")
    ∧ execute_workflow_check
        { status := observed_status "pending" 0 60 3601, script_id := some "s1",
          targets := ["a1"], created_at := 0, ttl_minutes := 60 }
      = some (400, "Workflow has expired") :=
  ⟨c1_execute_gate.2.2.1 _ rfl,
   c1_execute_gate.2.2.2.2.1 _ (by decide) (by decide) (by decide) (by decide),
   c1_execute_gate.2.2.2.2.2
     { status := "pending", script_id := some "s1", targets := ["a1"],
       created_at := 0, ttl_minutes := 60 } 3601 rfl (by decide)⟩

/-- The stored state of one workflow as seen by the approve route:
status, recorded approvals `(approver, level)`, and the required count. -/
structure WfState where
  status : String
  approvals : List (String × Nat)
  required_approval_levels : Nat
deriving DecidableEq

/-- Modelled from the spec: `db.add_approval` (controller/db/db.py is not
under src/) — records one approval and enforces "No two approvals from the
same approver for the same workflow"; returns the success flag the route
checks. -/
def add_approval (w : WfState) (approver : String) (level : Nat) : Bool × WfState :=
  if (w.approvals.map Prod.fst).contains approver then (false, w)
  else (true, { w with approvals := w.approvals ++ [(approver, level)] })

/-- `db.update_workflow_status`. -/
def update_workflow_status (w : WfState) (st : String) : WfState :=
  { w with status := st }

/-- `approve_workflow` (wrk.py 391-463).  Each element of the returned list
is the stored workflow state at a storage-call boundary: the state the route
read, the state after `db.add_approval`, and the state after the (separate)
`db.update_workflow_status` call — the intermediate state is observable
because the two writes are distinct storage transactions. -/
def approve_workflow (w : WfState) (approver : String) (level : Nat) :
    Except (Nat × String) (List WfState) :=
  if w.status ≠ "pending" then .error (400, "Workflow is already " ++ w.status)
  else
    match add_approval w approver level with
    | (false, _) => .error (400, "Already approved by this user")
    | (true, w1) =>
      if w1.approvals.length ≥ w1.required_approval_levels then
        .ok [w, w1, update_workflow_status w1 "approved"]
      else
        .ok [w, w1, w1]

/-- C2 (counterexample): approving a pending workflow with
`required_approval_levels = 1` produces the observable intermediate state
(after `db.add_approval`, before `db.update_workflow_status`) in which the
approval count has already reached the required count while the status is
still `"pending"` — the transition is not in the same storage transaction
that recorded the approval. -/
theorem c2_counterexample :
    approve_workflow ⟨"pending", [], 1⟩ "alice" 1
      = .ok [⟨"pending", [], 1⟩, ⟨"pending", [("alice", 1)], 1⟩,
             ⟨"approved", [("alice", 1)], 1⟩]
    ∧ (⟨"pending", [("alice", 1)], 1⟩ : WfState).approvals.length
        ≥ (⟨"pending", [("alice", 1)], 1⟩ : WfState).required_approval_levels
    ∧ (⟨"pending", [("alice", 1)], 1⟩ : WfState).status = "pending" := by
  refine ⟨rfl, by decide, rfl⟩

/-- C2 (amended): the approval record and the status transition happen in
two separate storage calls, so there is an observable intermediate state
with `approvals ≥ required_approval_levels` and status still `"pending"`;
when the approve route completes successfully, the final stored state does
satisfy `approvals ≥ required_approval_levels → status = "approved"`, and
the trace is exactly read-state, post-approval state, post-transition
state. -/
theorem c2_amended (w : WfState) (approver : String) (level : Nat)
    (trace : List WfState)
    (hok : approve_workflow w approver level = .ok trace) :
    ∃ w1 wfin, trace = [w, w1, wfin]
      ∧ w1.approvals.length = w.approvals.length + 1
      ∧ (wfin.approvals.length ≥ wfin.required_approval_levels →
          wfin.status = "approved") := by
  rw [approve_workflow] at hok
  by_cases h1 : w.status ≠ "pending"
  · rw [if_pos h1] at hok; exact absurd hok (by simp)
  · rw [if_neg h1] at hok
    by_cases h2 : (w.approvals.map Prod.fst).contains approver
    · rw [add_approval, if_pos h2] at hok
      exact absurd hok (by simp)
    · rw [add_approval, if_neg h2] at hok
      simp only at hok
      by_cases h3 : (w.approvals ++ [(approver, level)]).length ≥ w.required_approval_levels
      · rw [if_pos h3] at hok
        refine ⟨{ w with approvals := w.approvals ++ [(approver, level)] },
                update_workflow_status
                  { w with approvals := w.approvals ++ [(approver, level)] } "approved",
                ?_, by simp, fun _ => rfl⟩
        injection hok with h
        rw [← h]
      · rw [if_neg h3] at hok
        refine ⟨{ w with approvals := w.approvals ++ [(approver, level)] },
                { w with approvals := w.approvals ++ [(approver, level)] },
                ?_, by simp, fun hge => absurd hge h3⟩
        injection hok with h
        rw [← h]

/-- Witness for `c2_amended`: a three-level workflow receiving its second
approval — the trace ends still pending with 2 of 3 approvals. -/
theorem c2_amended_witness :
    ∃ w1 wfin, [(⟨"pending", [("bob", 1)], 3⟩ : WfState),
                ⟨"pending", [("bob", 1), ("alice", 2)], 3⟩,
                ⟨"pending", [("bob", 1), ("alice", 2)], 3⟩]
        = [⟨"pending", [("bob", 1)], 3⟩, w1, wfin]
      ∧ w1.approvals.length = (⟨"pending", [("bob", 1)], 3⟩ : WfState).approvals.length + 1
      ∧ (wfin.approvals.length ≥ wfin.required_approval_levels →
          wfin.status = "approved") :=
  c2_amended ⟨"pending", [("bob", 1)], 3⟩ "alice" 2
    [⟨"pending", [("bob", 1)], 3⟩, ⟨"pending", [("bob", 1), ("alice", 2)], 3⟩,
     ⟨"pending", [("bob", 1), ("alice", 2)], 3⟩] (by rfl)

/-! ## Agent registry and environment ACL (agents.py 136-275)

The caller's allowed environments (`get_user_allowed_environments`, backed by
`db.get_user_environments` in db_methods_to_add.py) are passed in as the list
of grant rows; agents carry the optional `environment` column read with
default `'DEV'`. -/

/-- An agent row as read by the list routes. -/
structure Agent where
  agent_name : String
  environment : Option String
  status : Option String
deriving DecidableEq

/-- `agent.get('environment', 'DEV')`. -/
def env_or_dev (a : Agent) : String := a.environment.getD "DEV"

/-- Python `str.upper()` (ASCII), character by character. -/
def pyUpper (s : String) : String := String.mk (s.toList.map Char.toUpper)

/-- `filter_agents_by_environment` (agents.py 158-172). -/
def filter_agents_by_environment (agents : List Agent) (allowed_environments : List String) :
    List Agent :=
  if allowed_environments.isEmpty then []
  else if allowed_environments.contains "*" then agents
  else agents.filter
    (fun a => (allowed_environments.map pyUpper).contains (pyUpper (env_or_dev a)))

/-- `user_can_access_environment` (agents.py 175-181). -/
def user_can_access_environment (allowed_environments : List String) (target : String) : Bool :=
  if allowed_environments.isEmpty then false
  else if allowed_environments.contains "*" then true
  else (allowed_environments.map pyUpper).contains (pyUpper target)

/-- The three observable outcomes of `GET /agents` (agents.py 226-275). -/
inductive ListAgentsResult where
  | noAccess
  | forbidden (detail : String)
  | ok (agents : List Agent)
deriving DecidableEq

/-- `list_agents` (agents.py 226-275): empty grant list short-circuits to the
empty list with an explanatory message; then the rows are filtered by the
caller's grants; a requested specific environment is checked against the ACL
(403 naming the environment) and applied as a further filter. -/
def list_agents (allowed_environments : List String) (agents : List Agent)
    (environment : Option String) : ListAgentsResult :=
  if allowed_environments.isEmpty then .noAccess
  else
    let filtered := filter_agents_by_environment agents allowed_environments
    match environment with
    | some env =>
      if ¬ user_can_access_environment allowed_environments env then
        .forbidden ("You don't have access to the " ++ env ++ " environment")
      else .ok (filtered.filter (fun a => pyUpper (env_or_dev a) == pyUpper env))
    | none => .ok filtered

/-- C4: (i) a caller with no grants always receives the empty-list/message
outcome (this branch precedes the per-environment check, so it also covers a
no-grant caller naming a specific environment); (ii) a caller holding the
wildcard grant and no environment filter receives the unfiltered list;
(iii) a caller with at least one grant naming an environment outside their
ACL receives 403 with the message naming that environment; (iv) every agent
in a returned list is in the caller's allowed environments (case-insensitive)
unless the caller holds the wildcard. -/
theorem c4_list_agents_acl :
    (∀ (agents : List Agent) (env : Option String), list_agents [] agents env = .noAccess)
    ∧ (∀ (allowed : List String) (agents : List Agent), allowed.contains "*" = true →
        list_agents allowed agents none = .ok agents)
    ∧ (∀ (allowed : List String) (agents : List Agent) (env : String),
        allowed ≠ [] → user_can_access_environment allowed env = false →
        list_agents allowed agents (some env)
          = .forbidden ("You don't have access to the " ++ env ++ " environment"))
    ∧ (∀ (allowed : List String) (agents : List Agent) (env : Option String)
         (res : List Agent) (a : Agent),
        list_agents allowed agents env = .ok res → a ∈ res →
        allowed.contains "*" = true
          ∨ (allowed.map pyUpper).contains (pyUpper (env_or_dev a)) = true) := by
  refine ⟨?_, ?_, ?_, ?_⟩
  · intro agents env
    rfl
  · intro allowed agents hw
    have hne : ¬ allowed.isEmpty = true := by
      cases allowed with
      | nil => simp at hw
      | cons x xs => simp
    rw [list_agents, if_neg hne]
    simp only [filter_agents_by_environment, if_neg hne, if_pos hw]
  · intro allowed agents env hne hacc
    have hne' : ¬ allowed.isEmpty = true := by
      cases allowed with
      | nil => exact absurd rfl hne
      | cons x xs => simp
    rw [list_agents, if_neg hne']
    simp only [hacc]
    rw [if_pos (by simp)]
  · intro allowed agents env res a hok ha
    by_cases hne : allowed.isEmpty = true
    · rw [list_agents, if_pos hne] at hok
      exact absurd hok (by simp)
    · rw [list_agents, if_neg hne] at hok
      by_cases hw : allowed.contains "*" = true
      · exact Or.inl hw
      · refine Or.inr ?_
        have hfil : ∀ b, b ∈ filter_agents_by_environment agents allowed →
            (allowed.map pyUpper).contains (pyUpper (env_or_dev b)) = true := by
          intro b hb
          rw [filter_agents_by_environment, if_neg hne, if_neg hw] at hb
          exact (List.mem_filter.mp hb).2
        cases env with
        | none =>
          simp only at hok
          injection hok with h
          exact hfil a (by rw [h]; exact ha)
        | some e =>
          simp only at hok
          by_cases hacc : user_can_access_environment allowed e
          · rw [if_neg (by simpa using hacc)] at hok
            injection hok with h
            have hmem : a ∈ (filter_agents_by_environment agents allowed).filter
                (fun b => pyUpper (env_or_dev b) == pyUpper e) := by
              rw [h]; exact ha
            exact hfil a (List.mem_of_mem_filter hmem)
          · rw [if_pos (by simpa using hacc)] at hok
            exact absurd hok (by simp)

/-- Witness for `c4_list_agents_acl` at concrete grant sets and agents. -/
theorem c4_list_agents_acl_witness :
    list_agents [] [⟨"a1", some "DEV", some "online"⟩] (some "PROD") = .noAccess
    ∧ list_agents ["*"] [⟨"a1", some "DEV", some "online"⟩] none
        = .ok [⟨"a1", some "DEV", some "online"⟩]
    ∧ list_agents ["DEV"] [⟨"a1", some "DEV", some "online"⟩] (some "PROD")
        = .forbidden ("You don't have access to the " ++ "PROD" ++ " environment")
    ∧ ((["DEV"].contains "*" = true)
          ∨ (["DEV"].map pyUpper).contains
              (pyUpper (env_or_dev ⟨"a1", some "DEV", some "online"⟩)) = true) :=
  ⟨c4_list_agents_acl.1 [⟨"a1", some "DEV", some "online"⟩] (some "PROD"),
   c4_list_agents_acl.2.1 ["*"] [⟨"a1", some "DEV", some "online"⟩] (by decide),
   c4_list_agents_acl.2.2.1 ["DEV"] [⟨"a1", some "DEV", some "online"⟩] "PROD"
     (by decide) (by decide),
   c4_list_agents_acl.2.2.2 ["DEV"]
     [⟨"a1", some "DEV", some "online"⟩, ⟨"a2", some "PROD", none⟩] none
     [⟨"a1", some "DEV", some "online"⟩] ⟨"a1", some "DEV", some "online"⟩
     (by rfl) (by decide)⟩

/-- The observable outcome of a route body that may hit an unbound local
variable: Python raises `NameError` (surfacing as HTTP 500) naming the
variable. -/
inductive PyOutcome (α : Type) where
  | ok (a : α)
  | nameError (var : String)
deriving DecidableEq

/-- The response dictionary of `GET /agents/all`. -/
structure AgentsAllResp where
  agents : List Agent
  count : Nat
deriving DecidableEq

/-- `list_all_agents` (agents.py 188-223).  The health-check loop that would
bind `updated_agents` is commented out in the source (lines 208-213), and
`agents_list` is assigned only inside `if status:` (line 217) from
`updated_agents`.  Consequently the status-filter branch reads the unbound
local `updated_agents`, and the return statement (line 219) reads the
unbound local `agents_list` when no status filter was supplied. -/
def list_all_agents (agents : List Agent) (status : Option String) :
    PyOutcome AgentsAllResp :=
  match status with
  | some _ => .nameError "updated_agents"
  | none => .nameError "agents_list"

/-- C9: `GET /agents/all` never returns an agent list — with no status
filter it raises `NameError` on `agents_list`, with a status filter it
raises `NameError` on `updated_agents`; in particular the unfiltered path
does not return the complete list of registered agents. -/
theorem c9_list_all_agents_name_error :
    (∀ agents : List Agent, list_all_agents agents none = .nameError "agents_list")
    ∧ (∀ (agents : List Agent) (st : String),
        list_all_agents agents (some st) = .nameError "updated_agents")
    ∧ (∀ (agents : List Agent) (status : Option String) (r : AgentsAllResp),
        list_all_agents agents status ≠ .ok r) := by
  refine ⟨fun _ => rfl, fun _ _ => rfl, ?_⟩
  intro _agents status r h
  cases status with
  | none => exact absurd h (by simp [list_all_agents])
  | some st => exact absurd h (by simp [list_all_agents])

/-- Witness for `c9_list_all_agents_name_error` at a concrete registry. -/
theorem c9_list_all_agents_name_error_witness :
    list_all_agents [⟨"a1", some "DEV", some "online"⟩] none = .nameError "agents_list"
    ∧ list_all_agents [⟨"a1", some "DEV", some "online"⟩] (some "online")
        = .nameError "updated_agents"
    ∧ list_all_agents [⟨"a1", some "DEV", some "online"⟩] none
        ≠ .ok ⟨[⟨"a1", some "DEV", some "online"⟩], 1⟩ :=
  ⟨c9_list_all_agents_name_error.1 _,
   c9_list_all_agents_name_error.2.1 _ "online",
   c9_list_all_agents_name_error.2.2 _ none _⟩

/-! ## Proxy session store (ssl_proxy.py 288-392, 524-561)

`AuthManager.sessions` is a dict from session id to the user dict plus a
fixed `created` timestamp.  `get_session` is the only lookup, used by
`ProxyServer.handle` for the `proxy_session` cookie; nothing in the proxy
ever rewrites `created` or any expiry field after creation. -/

/-- A stored proxy session: the authenticated user plus `created`
(`time.time()` at creation). -/
structure PSession where
  cn : String
  auth_method : String
  created : Int
deriving DecidableEq

/-- `self.sessions.get(sid)`. -/
def sessions_get : List (String × PSession) → String → Option PSession
  | [], _ => none
  | (k, v) :: rest, sid => if k = sid then some v else sessions_get rest sid

/-- `del self.sessions[sid]`. -/
def sessions_del : List (String × PSession) → String → List (String × PSession)
  | [], _ => []
  | (k, v) :: rest, sid =>
    if k = sid then sessions_del rest sid else (k, v) :: sessions_del rest sid

/-- `AuthManager.get_session` (ssl_proxy.py 385-392): return the session when
`time.time() - session['created'] < self.config.session_timeout`, otherwise
delete it; returns the result together with the post-state of the store. -/
def get_session (sessions : List (String × PSession)) (timeout now : Int) (sid : String) :
    Option PSession × List (String × PSession) :=
  match sessions_get sessions sid with
  | some s =>
    if now - s.created < timeout then (some s, sessions)
    else (none, sessions_del sessions sid)
  | none => (none, sessions)

theorem sessions_get_del (sessions : List (String × PSession)) (sid : String) :
    sessions_get (sessions_del sessions sid) sid = none := by
  induction sessions with
  | nil => rfl
  | cons p rest ih =>
    obtain ⟨k, v⟩ := p
    by_cases h : k = sid
    · rw [sessions_del, if_pos h]
      exact ih
    · rw [sessions_del, if_neg h, sessions_get, if_neg h]
      exact ih

/-- C7 (counterexample): a valid lookup — the authenticated request path of
`ProxyServer.handle` presenting the `proxy_session` cookie — returns the
session and leaves the store (hence `created` and the absolute expiry
`created + timeout`) completely unchanged: no refresh of the expiry ever
happens, so "refresh strictly increases expires_at" fails. -/
theorem c7_counterexample :
    (get_session [("sid1", ⟨"jsmith", "ntlm", 100⟩)] 3600 200 "sid1").1
        = some ⟨"jsmith", "ntlm", 100⟩
    ∧ (get_session [("sid1", ⟨"jsmith", "ntlm", 100⟩)] 3600 200 "sid1").2
        = [("sid1", ⟨"jsmith", "ntlm", 100⟩)]
    ∧ sessions_get
        (get_session [("sid1", ⟨"jsmith", "ntlm", 100⟩)] 3600 200 "sid1").2 "sid1"
        = some ⟨"jsmith", "ntlm", 100⟩ := by
  refine ⟨rfl, rfl, rfl⟩

/-- C7 (amended): `get_session` returns a session only when its age is
within the configured timeout, and then leaves the store unchanged (fixed
expiration — no sliding refresh); an expired session is deleted: the lookup
returns nothing and the id is gone from the post-state. -/
theorem c7_amended :
    (∀ (sessions : List (String × PSession)) (timeout now : Int) (sid : String)
       (s : PSession),
        (get_session sessions timeout now sid).1 = some s →
        now - s.created < timeout
          ∧ (get_session sessions timeout now sid).2 = sessions)
    ∧ (∀ (sessions : List (String × PSession)) (timeout now : Int) (sid : String)
         (s : PSession),
        sessions_get sessions sid = some s → ¬ now - s.created < timeout →
        (get_session sessions timeout now sid).1 = none
          ∧ sessions_get (get_session sessions timeout now sid).2 sid = none) := by
  constructor
  · intro sessions timeout now sid s h
    rw [get_session] at h ⊢
    cases hg : sessions_get sessions sid with
    | none =>
      rw [hg] at h
      exact absurd h (by simp)
    | some s0 =>
      rw [hg] at h
      simp only at h ⊢
      by_cases ht : now - s0.created < timeout
      · rw [if_pos ht] at h ⊢
        injection h with h
        rw [← h]
        exact ⟨ht, rfl⟩
      · rw [if_neg ht] at h
        exact absurd h (by simp)
  · intro sessions timeout now sid s hg ht
    rw [get_session, hg]
    simp only
    rw [if_neg ht]
    exact ⟨rfl, sessions_get_del sessions sid⟩

/-- Witness for `c7_amended`: a valid lookup at age 100 of 3600, and an
expired lookup at age 4000 of 3600. -/
theorem c7_amended_witness :
    ((0 : Int) + 200 - 100 < 3600
      ∧ (get_session [("sid1", ⟨"jsmith", "ntlm", 100⟩)] 3600 (0 + 200) "sid1").2
          = [("sid1", ⟨"jsmith", "ntlm", 100⟩)])
    ∧ ((get_session [("sid1", ⟨"jsmith", "ntlm", 100⟩)] 3600 4100 "sid1").1 = none
      ∧ sessions_get
          (get_session [("sid1", ⟨"jsmith", "ntlm", 100⟩)] 3600 4100 "sid1").2 "sid1"
          = none) :=
  ⟨(c7_amended.1 [("sid1", ⟨"jsmith", "ntlm", 100⟩)] 3600 (0 + 200) "sid1"
      ⟨"jsmith", "ntlm", 100⟩ rfl),
   (c7_amended.2 [("sid1", ⟨"jsmith", "ntlm", 100⟩)] 3600 4100 "sid1"
      ⟨"jsmith", "ntlm", 100⟩ rfl (by decide))⟩

/-! ## Report runner (reports.py 239-319)

`run_report` looks up the script row, the target agent, validates required
parameters against the script's registered schema, and records/dispatches
the run.  The db lookups are passed in as the found rows. -/

/-- One entry of a report script's parameter schema. -/
structure ParamDef where
  name : String
  required : Bool
deriving DecidableEq

/-- A registered report script row (the fields `run_report` reads). -/
structure ReportScript where
  script_path : String
  timeout : Nat
  parameters : List ParamDef
deriving DecidableEq

/-- The created run as returned by `run_report` on success. -/
structure ReportRunStarted where
  run_id : String
  script_id : String
  target : String
  status : String
deriving DecidableEq

/-- `request.parameters or {}`, reduced to the supplied keys (dict membership
`param_def['name'] not in provided_params` tests keys). -/
def provided_keys (params : Option (List (String × String))) : List String :=
  (params.getD []).map Prod.fst

/-- The validation loop of reports.py 274-279: the first schema entry that is
`required` and whose name is not among the supplied keys. -/
def find_missing_required (defs : List ParamDef) (ks : List String) : Option String :=
  match defs with
  | [] => none
  | d :: rest =>
    if d.required && !(ks.contains d.name) then some d.name
    else find_missing_required rest ks

/-- `run_report` (reports.py 239-319): 404 for an unknown script or agent,
400 for an offline agent, 400 naming the first missing required parameter,
otherwise the run row is created with status `running` and dispatched. -/
def run_report (script_id : String) (script : Option ReportScript) (agent : Option Agent)
    (target : String) (params : Option (List (String × String))) (run_id : String) :
    Except (Nat × String) ReportRunStarted :=
  match script with
  | none => .error (404, "Report script '" ++ script_id ++ "' not found")
  | some sc =>
    match agent with
    | none => .error (404, "Agent '" ++ target ++ "' not found")
    | some ag =>
      if ag.status ≠ some "online" then .error (400, "Agent '" ++ target ++ "' is not online")
      else
        match find_missing_required sc.parameters (provided_keys params) with
        | some p => .error (400, "Required parameter '" ++ p ++ "' is missing")
        | none => .ok { run_id := run_id, script_id := script_id, target := target,
                        status := "running" }

/-- C10: a run request is rejected with 400 naming the first missing
required parameter; the run is created (status `running`) exactly when no
required parameter is missing, and then every required parameter of the
registered schema is among the supplied keys. -/
theorem c10_required_params :
    (∀ (defs : List ParamDef) (ks : List String),
        find_missing_required defs ks = none
          ↔ ∀ d ∈ defs, d.required = true → ks.contains d.name = true)
    ∧ (∀ (sid : String) (sc : ReportScript) (ag : Agent) (target : String)
         (params : Option (List (String × String))) (rid p : String),
        ag.status = some "online" →
        find_missing_required sc.parameters (provided_keys params) = some p →
        run_report sid (some sc) (some ag) target params rid
          = .error (400, "Required parameter '" ++ p ++ "' is missing"))
    ∧ (∀ (sid : String) (sc : ReportScript) (ag : Agent) (target : String)
         (params : Option (List (String × String))) (rid : String) (r : ReportRunStarted),
        run_report sid (some sc) (some ag) target params rid = .ok r →
        (∀ d ∈ sc.parameters, d.required = true →
            (provided_keys params).contains d.name = true)
          ∧ r.status = "running")
    ∧ (∀ (sid : String) (sc : ReportScript) (ag : Agent) (target : String)
         (params : Option (List (String × String))) (rid : String),
        ag.status = some "online" →
        find_missing_required sc.parameters (provided_keys params) = none →
        run_report sid (some sc) (some ag) target params rid
          = .ok { run_id := rid, script_id := sid, target := target, status := "running" }) := by
  have hiff : ∀ (defs : List ParamDef) (ks : List String),
      find_missing_required defs ks = none
        ↔ ∀ d ∈ defs, d.required = true → ks.contains d.name = true := by
    intro defs ks
    induction defs with
    | nil => simp [find_missing_required]
    | cons d rest ih =>
      rw [find_missing_required]
      by_cases hg : (d.required && !(ks.contains d.name)) = true
      · rw [if_pos hg]
        simp only [Bool.and_eq_true, Bool.not_eq_true'] at hg
        constructor
        · intro h; exact absurd h (by simp)
        · intro h
          have := h d (by simp) hg.1
          rw [this] at hg
          exact absurd hg.2 (by simp)
      · rw [if_neg hg]
        rw [ih]
        simp only [Bool.and_eq_true, Bool.not_eq_true'] at hg
        constructor
        · intro h d' hd' hreq
          rcases List.mem_cons.mp hd' with h1 | h1
          · rw [h1]
            by_cases hk : ks.contains d.name = true
            · exact hk
            · rw [h1] at hreq
              exact absurd ⟨hreq, by simpa using hk⟩ hg
          · exact h d' h1 hreq
        · intro h d' hd' hreq
          exact h d' (List.mem_cons_of_mem d hd') hreq
  refine ⟨hiff, ?_, ?_, ?_⟩
  · intro sid sc ag target params rid p hon hmiss
    rw [run_report, if_neg (by rw [hon]; simp), hmiss]
  · intro sid sc ag target params rid r hok
    rw [run_report] at hok
    by_cases hon : ag.status ≠ some "online"
    · rw [if_pos hon] at hok
      exact absurd hok (by simp)
    · rw [if_neg hon] at hok
      cases hm : find_missing_required sc.parameters (provided_keys params) with
      | some p =>
        rw [hm] at hok
        exact absurd hok (by simp)
      | none =>
        rw [hm] at hok
        refine ⟨(hiff _ _).mp hm, ?_⟩
        injection hok with h
        rw [← h]
  · intro sid sc ag target params rid hon hnone
    rw [run_report, if_neg (by rw [hon]; simp), hnone]

/-- Witness for `c10_required_params`: a script requiring `path`, run once
without parameters (rejected naming `path`) and once with `path` supplied
(run created). -/
theorem c10_required_params_witness :
    run_report "disk_usage" (some ⟨"/opt/disk.sh", 300, [⟨"path", true⟩]⟩)
        (some ⟨"a1", some "DEV", some "online"⟩) "a1" none "run-1"
      = .error (400, "Required parameter '" ++ "path" ++ "' is missing")
    ∧ run_report "disk_usage" (some ⟨"/opt/disk.sh", 300, [⟨"path", true⟩]⟩)
        (some ⟨"a1", some "DEV", some "online"⟩) "a1" (some [("path", "/var")]) "run-2"
      = .ok ⟨"run-2", "disk_usage", "a1", "running"⟩ :=
  ⟨c10_required_params.2.1 "disk_usage" ⟨"/opt/disk.sh", 300, [⟨"path", true⟩]⟩
      ⟨"a1", some "DEV", some "online"⟩ "a1" none "run-1" "path" rfl (by decide),
   c10_required_params.2.2.2 "disk_usage" ⟨"/opt/disk.sh", 300, [⟨"path", true⟩]⟩
      ⟨"a1", some "DEV", some "online"⟩ "a1" (some [("path", "/var")]) "run-2" rfl (by decide)⟩
